import Mathlib

/-!
Verification of the SendRepo synchronization orchestrator (src/sendrepo.py)
against its natural-language specification.

The development shallowly embeds the parts of the program the claims are
about: path/string helpers, the configuration and global-exclude search
cascades, the rsync argument-vector builder of `SendRepo.sync_project`,
the lifecycle of one project synchronization (pre-send hook, platform
check, transfer, post-send hook) as an explicit event trace, the
`sync_config` operation, and the `main` wiring that determines the process
exit status.  External effects (subprocess exit codes, the wall clock,
file existence) are supplied as explicit oracle fields of environment
records.  Print-only diagnostics are modelled as trace events exactly
where a claim refers to them.
-/

namespace SendRepo

/-! ## String helpers

Paths are modelled as plain strings with `/` as separator (the
orchestration logic under verification only concatenates, splits and
compares them).  `str.format` with a single named placeholder and
Python's substring test are modelled by fuel-based structural recursion
over the character list so that all definitions reduce in the kernel. -/

/-- Replace every occurrence of `pat` in the character list by `rep`,
left to right and without rescanning the replacement, as Python's
`str.replace` / single-placeholder `str.format` do.  Each step consumes
at least one input character, so the input length is enough fuel. -/
def replaceFuel (pat rep : List Char) : Nat → List Char → List Char
  | 0, l => l
  | _ + 1, [] => []
  | fuel + 1, c :: rest =>
    if pat ≠ [] ∧ pat.isPrefixOf (c :: rest) then
      rep ++ replaceFuel pat rep fuel (List.drop (pat.length - 1) rest)
    else
      c :: replaceFuel pat rep fuel rest

/-- `strReplace s pat rep` models `s.replace(pat, rep)` (and
`s.format(name=rep)` when `pat` is the `name` placeholder). -/
def strReplace (s pat rep : String) : String :=
  ⟨replaceFuel pat.data rep.data s.data.length s.data⟩

/-- Does `pat` occur in the character list? -/
def containsSubL (pat : List Char) : List Char → Bool
  | [] => pat.isPrefixOf ([] : List Char)
  | c :: rest => pat.isPrefixOf (c :: rest) || containsSubL pat rest

/-- `hasSub s pat` models Python's `pat in s` substring test. -/
def hasSub (s pat : String) : Bool := containsSubL pat.data s.data

/-- The `backup_dir` timestamp placeholder literal `{timestamp}`. -/
def tsPat : String := "\x7btimestamp\x7d"

/-- The project-path root placeholder literal `{root}`. -/
def rootPat : String := "\x7broot\x7d"

/-- `SendRepo._load_config` line `project['path'].format(root=root)`:
expand the root placeholder in a configured project path. -/
def resolvePath (root rawPath : String) : String := strReplace rawPath rootPat root

/-- Python truthiness of an optional string (`if s:`): present and
non-empty. -/
def truthyStr : Option String → Bool
  | some s => s != ""
  | none => false

/-- Python truthiness of an optional integer (`if n:`): present and
non-zero. -/
def truthyNat : Option Nat → Bool
  | some n => n != 0
  | none => false

/-- `SendRepo._windows_to_wsl_path`: on win32, a drive-letter-rooted path
(`X:\...` or `X:/...`) becomes `/mnt/x/...` with backslashes turned into
slashes; otherwise the path is returned unchanged. -/
def windowsToWslPath (platform : String) (path : String) : String :=
  if platform = "win32" then
    match path.data with
    | c :: c2 :: c3 :: rest =>
      if c2 = ':' ∧ (c3 = '\\' ∨ c3 = '/') then
        "/mnt/" ++ String.singleton c.toLower ++ "/"
          ++ String.mk (rest.map fun x => if x = '\\' then '/' else x)
      else path
    | _ => path
  else path

/-! ## Project configuration and the rsync argument vector

`ProjectConfig` mirrors the per-project keys read by
`SendRepo.sync_project`; optional keys absent from the YAML map are
`none`.  The argument vector of lines 281–322 is assembled segment by
segment in source order. -/

structure ProjectConfig where
  path : String
  remote : String
  exclude : List String
  port : Option Nat
  sshJumpHost : Option String
  backupDir : Option String
  preSend : Option String
  postSend : Option String
  deriving DecidableEq, Repr

/-- Lines 282–287: the base rsync flags. -/
def baseCmd : List String := ["rsync", "-avz", "--itemize-changes", "--delete"]

/-- Lines 289–290: the dry-run flag. -/
def dryRunSeg (dryRun : Bool) : List String := if dryRun then ["--dry-run"] else []

/-- Lines 292–294: backup flags, added when the (already
timestamp-expanded) backup dir is truthy. -/
def backupSeg (backupDir : Option String) : List String :=
  if truthyStr backupDir then ["--backup", "--backup-dir=" ++ backupDir.getD ""] else []

/-- Lines 296–304: the ssh transport override.  A truthy jump host
produces one `-e` argument carrying the jump host and, when a truthy
port is present, the port as well; otherwise a truthy port alone
produces the simpler override; otherwise nothing. -/
def sshSeg (jump : Option String) (port : Option Nat) : List String :=
  if truthyStr jump then
    ["-e", "ssh -J " ++ jump.getD ""
      ++ (if truthyNat port then " -p " ++ toString (port.getD 0) else "")]
  else if truthyNat port then
    ["-e", "ssh -p " ++ toString (port.getD 0)]
  else []

/-- Lines 306–309: explicit include rules for .env files. -/
def includeEnvSeg (includeEnv : Bool) : List String :=
  if includeEnv then ["--include", ".env", "--include", ".env.*"] else []

/-- Lines 311–314: the global exclude file, translated on win32. -/
def excludeFromSeg (platform : String) (globalExcludeFile : Option String) : List String :=
  if truthyStr globalExcludeFile then
    ["--exclude-from",
      if platform = "win32" then windowsToWslPath platform (globalExcludeFile.getD "")
      else globalExcludeFile.getD ""]
  else []

/-- Lines 316–318: one `--exclude` flag per project pattern, in
configured order. -/
def excludeSeg : List String → List String
  | [] => []
  | p :: ps => "--exclude" :: p :: excludeSeg ps

/-- Line 321: the source path, translated on win32. -/
def srcArg (platform : String) (path : String) : String :=
  if platform = "win32" then windowsToWslPath platform path else path

/-- Lines 281–322 of `SendRepo.sync_project`: the full rsync argument
vector (before the win32 `wsl` prefix of line 333). -/
def buildRsyncCmd (platform : String) (globalExcludeFile : Option String)
    (p : ProjectConfig) (dryRun includeEnv : Bool) (backupDir : Option String) : List String :=
  baseCmd ++ dryRunSeg dryRun ++ backupSeg backupDir ++ sshSeg p.sshJumpHost p.port
    ++ includeEnvSeg includeEnv ++ excludeFromSeg platform globalExcludeFile
    ++ excludeSeg p.exclude ++ [srcArg platform p.path, p.remote]

/-! ## C4 fixture -/

/-- The ProjectConfig of the C4 scenario, its path expanded by
`_load_config`'s root formatting. -/
def c4Project : ProjectConfig :=
  { path := resolvePath "/home/u" "\x7broot\x7d/app"
    remote := "user@host:/srv/app"
    exclude := [".git", "node_modules"]
    port := some 2222
    sshJumpHost := none
    backupDir := none
    preSend := none
    postSend := none }

/-- C4: for the scenario project (path `{root}/app` under root `/home/u`,
remote `user@host:/srv/app`, excludes `.git` and `node_modules`, port
2222) the resolved source is `/home/u/app` and the assembled vector
carries the `-e "ssh -p 2222"` transport override, both excludes in
configured order, and the source immediately before the remote at the
end. -/
theorem c4_scenario_vector :
    c4Project.path = "/home/u/app" ∧
    buildRsyncCmd "linux" none c4Project false false none =
      ["rsync", "-avz", "--itemize-changes", "--delete",
       "-e", "ssh -p 2222",
       "--exclude", ".git", "--exclude", "node_modules",
       "/home/u/app", "user@host:/srv/app"] := by
  constructor
  · decide
  · decide

/-! ## The configuration / global-exclude search cascades (C3)

`FsEnv` carries the process-wide inputs of `_find_config_file` and
`_find_global_exclude_file`: the explicit `--config`-style path handed to
the constructor, the `SENDREPO_CONFIG_PATH` environment variable, the
platform, `APPDATA`, the home directory, the directory of the script, and
a file-existence oracle. -/

structure FsEnv where
  specifiedPath : Option String
  envConfigPath : Option String
  platform : String
  appdata : String
  home : String
  scriptDir : String
  pathExists : String → Bool

/-- `os.path.dirname`, for `/`-separated paths: everything before the
last separator (empty when there is no separator, as in Python). -/
def dirname (p : String) : String :=
  ⟨((p.data.reverse.dropWhile fun c => !(c == '/')).drop 1).reverse⟩

/-- Split a character list at `/` separators. -/
def splitSlashAux : List Char → List Char → List (List Char)
  | acc, [] => [acc.reverse]
  | acc, c :: rest =>
    if c = '/' then acc.reverse :: splitSlashAux [] rest
    else splitSlashAux (c :: acc) rest

/-- Collapse `..` segments against a stack of already-kept segments;
under an absolute path a `..` at the root is dropped, as in
`os.path.normpath`. -/
def normStack (isAbs : Bool) : List (List Char) → List (List Char) → List (List Char)
  | acc, [] => acc.reverse
  | acc, s :: rest =>
    if s = "..".data then
      match acc with
      | [] => if isAbs then normStack isAbs [] rest else normStack isAbs [s] rest
      | a :: t =>
        if a = "..".data then normStack isAbs (s :: acc) rest
        else normStack isAbs t rest
    else normStack isAbs (s :: acc) rest

/-- `os.path.normpath` for `/`-separated paths without symlink
resolution: drops empty and `.` segments and collapses `..`. -/
def normpath (p : String) : String :=
  let isAbs := p.startsWith "/"
  let segs := (splitSlashAux [] p.data).filter fun s => s ≠ [] ∧ s ≠ ".".data
  let body := ⟨(List.intercalate "/".data (normStack isAbs [] segs))⟩
  if isAbs then "/" ++ body else if body = "" then "." else body

/-- The user-scoped configuration directory of lines 32–35 / 81–84:
`%APPDATA%/sendrepo` on win32, `~/.config/sendrepo` elsewhere. -/
def userConfigDir (e : FsEnv) : String :=
  if e.platform = "win32" then e.appdata ++ "/sendrepo"
  else e.home ++ "/.config/sendrepo"

/-- `SendRepo._find_config_file` (lines 21–51): explicit path, then the
environment variable, then the user-scoped directory, then the adjacent
`../sendrepo-config` directory (normalized on return), then the script's
own directory; the first existing candidate wins. -/
def findConfigFile (e : FsEnv) : Option String :=
  if truthyStr e.specifiedPath ∧ e.pathExists (e.specifiedPath.getD "") then
    e.specifiedPath
  else if truthyStr e.envConfigPath ∧ e.pathExists (e.envConfigPath.getD "") then
    e.envConfigPath
  else
    let userPath := userConfigDir e ++ "/config.yaml"
    if e.pathExists userPath then some userPath
    else
      let adjacent := e.scriptDir ++ "/../sendrepo-config/config.yaml"
      if e.pathExists adjacent then some (normpath adjacent)
      else
        let scriptPath := e.scriptDir ++ "/config.yaml"
        if e.pathExists scriptPath then some scriptPath
        else none

/-- The fixed global ignore-file name. -/
def excludeFileName : String := ".sr-ignore-global.txt"

/-- `SendRepo._find_global_exclude_file` (lines 70–100), translated in
the source's accumulate-then-probe shape: the directory of the
environment-variable config path (when the variable is truthy), the
user-scoped directory, the adjacent `sendrepo-config` directory, and the
script directory, each probed for `.sr-ignore-global.txt`; first existing
candidate wins.  (The environment path is assumed absolute, so
`os.path.abspath` is the identity.) -/
def findGlobalExcludeFile (e : FsEnv) : Option String :=
  let possible0 : List String := []
  let possible1 := possible0 ++
    (match e.envConfigPath with
     | some ep => if ep ≠ "" then [dirname ep ++ "/" ++ excludeFileName] else []
     | none => [])
  let possible2 := possible1 ++ [userConfigDir e ++ "/" ++ excludeFileName]
  let possible3 := possible2 ++ [dirname e.scriptDir ++ "/sendrepo-config/" ++ excludeFileName]
  let possible4 := possible3 ++ [e.scriptDir ++ "/" ++ excludeFileName]
  possible4.find? e.pathExists

/-- Modelled from the spec: the global exclude file located "by the same
ordered search precedence" as the configuration document — explicit
override, environment variable, user-scoped directory, adjacent sibling
directory, co-located directory — "differing only in the probed
filename", first existing candidate winning. -/
def findGlobalExcludeFileSpec (e : FsEnv) : Option String :=
  let cands :=
    (match e.specifiedPath with
     | some sp => if sp ≠ "" then [dirname sp ++ "/" ++ excludeFileName] else []
     | none => [])
    ++ (match e.envConfigPath with
        | some ep => if ep ≠ "" then [dirname ep ++ "/" ++ excludeFileName] else []
        | none => [])
    ++ [userConfigDir e ++ "/" ++ excludeFileName,
        dirname e.scriptDir ++ "/sendrepo-config/" ++ excludeFileName,
        e.scriptDir ++ "/" ++ excludeFileName]
  cands.find? e.pathExists

/-- The amended search description: identical to the configuration
cascade's environment-variable, user-scoped, adjacent-sibling and
co-located locations with the fixed filename — but without the
explicit-override location, which the code never probes for the global
exclude file. -/
def findGlobalExcludeFileAmended (e : FsEnv) : Option String :=
  let envCand : List String :=
    match e.envConfigPath with
    | some ep => if ep ≠ "" then [dirname ep ++ "/" ++ excludeFileName] else []
    | none => []
  (envCand
    ++ [userConfigDir e ++ "/" ++ excludeFileName,
        dirname e.scriptDir ++ "/sendrepo-config/" ++ excludeFileName,
        e.scriptDir ++ "/" ++ excludeFileName]).find? e.pathExists

/-- An environment in which only the explicit override's directory holds
a global exclude file. -/
def c3Env : FsEnv :=
  { specifiedPath := some "/tmp/cfg/config.yaml"
    envConfigPath := none
    platform := "linux"
    appdata := ""
    home := "/home/u"
    scriptDir := "/opt/tools/sendrepo"
    pathExists := fun s => s == "/tmp/cfg/.sr-ignore-global.txt" }

/-- C3 counterexample: with an explicit override `/tmp/cfg/config.yaml`
and the global exclude file present only next to it, the spec's
identical-precedence locator finds `/tmp/cfg/.sr-ignore-global.txt`, but
the code's locator returns nothing — the explicit-override location is
not among the code's probed candidates, so the two cascades are not the
same list of locations. -/
theorem c3_override_not_probed :
    findGlobalExcludeFileSpec c3Env = some "/tmp/cfg/.sr-ignore-global.txt" ∧
    findGlobalExcludeFile c3Env = none := by
  constructor
  · decide
  · decide

/-- C3 amended: for every environment state, the global exclude file is
located by probing, in order, the environment-variable directory, the
user-scoped directory, the adjacent sibling directory and the co-located
directory for the fixed filename — the configuration cascade minus its
explicit-override location — with the first existing candidate winning. -/
theorem c3_search_amended (e : FsEnv) :
    findGlobalExcludeFile e = findGlobalExcludeFileAmended e := by
  unfold findGlobalExcludeFile findGlobalExcludeFileAmended
  cases e.envConfigPath <;> simp

/-! ## The synchronization lifecycle as an event trace

`SyncEnv` supplies the external-world inputs of one `sync_project` call:
the platform, WSL availability, the located global exclude file, the
wall clock (a stream indexed by how many times `datetime.now()` has been
called), and the exit codes the three spawned processes would return.
`syncProject` replays lines 249–368 over these oracles, recording each
spawned command and each claim-relevant diagnostic as an `Event`, plus
the number of clock reads. -/

structure SyncEnv where
  platform : String
  wslAvailable : Bool
  globalExcludeFile : Option String
  clock : Nat → String
  preSendExit : Int
  rsyncExit : Int
  postSendExit : Int

/-- How a command is handed to `_run_command`: a shell string or an
argument vector. -/
inductive RunCmd where
  | str (cmd : String)
  | argv (args : List String)
  deriving DecidableEq, Repr

inductive Event where
  | dryRunBanner
  | preSendRun (cmd : RunCmd) (cwd : String)
  | preSendFailedMsg (code : Int)
  | wslUnavailableMsg
  | unsupportedPlatformMsg (platform : String)
  | logBackup (dir : String)
  | toolRun (args : List String) (code : Int)
  | syncOkMsg
  | syncFailedMsg (code : Int)
  | postSendRun (cmd : RunCmd) (code : Int)
  | postSendFailedMsg (code : Int)
  | projectNotFoundMsg (name : String)
  | noPreSendMsg (name : String)
  | noPostSendMsg (name : String)
  deriving DecidableEq, Repr

/-- The observable outcome of one `sync_project` call: its event trace
and how many times it read the clock.  (`sync_project` itself never
calls `sys.exit`; control always returns to `main`.) -/
structure SyncRun where
  events : List Event
  clockCalls : Nat
  deriving DecidableEq, Repr

/-- Lines 223–224 and 362–363: a post-send command is wrapped as
`['wsl', 'bash', '-c', cmd]` on win32 and run as a plain shell string
elsewhere. -/
def wrapPostSend (platform : String) (cmd : String) : RunCmd :=
  if platform = "win32" then RunCmd.argv ["wsl", "bash", "-c", cmd] else RunCmd.str cmd

/-- Lines 341–368: log the backup dir (when truthy), run the mirroring
command, and on success run the post-send hook (when present and not
dry-run), reporting but not escalating its failure. -/
def syncExec (env : SyncEnv) (p : ProjectConfig) (dryRun : Bool) (command : List String)
    (backupDir : Option String) (clockCalls : Nat) (ev : List Event) : SyncRun :=
  let ev2 := ev ++ (if truthyStr backupDir then [Event.logBackup (backupDir.getD "")] else [])
      ++ [Event.toolRun command env.rsyncExit]
  if env.rsyncExit = 0 then
    if p.postSend.isSome && !dryRun then
      let pc := wrapPostSend env.platform (p.postSend.getD "")
      if env.postSendExit = 0 then
        ⟨ev2 ++ [Event.syncOkMsg, Event.postSendRun pc env.postSendExit], clockCalls⟩
      else
        ⟨ev2 ++ [Event.syncOkMsg, Event.postSendRun pc env.postSendExit,
                 Event.postSendFailedMsg env.postSendExit], clockCalls⟩
    else ⟨ev2 ++ [Event.syncOkMsg], clockCalls⟩
  else ⟨ev2 ++ [Event.syncFailedMsg env.rsyncExit], clockCalls⟩

/-- Lines 324–339: on win32 the run is aborted with remediation guidance
when WSL is unavailable, otherwise the vector is prefixed with `wsl`; on
linux it runs directly; other platforms abort. -/
def syncTransfer (env : SyncEnv) (p : ProjectConfig) (dryRun includeEnv : Bool)
    (backupDir : Option String) (clockCalls : Nat) (ev : List Event) : SyncRun :=
  let rsyncCmd := buildRsyncCmd env.platform env.globalExcludeFile p dryRun includeEnv backupDir
  if env.platform = "win32" then
    if env.wslAvailable then
      syncExec env p dryRun ("wsl" :: rsyncCmd) backupDir clockCalls ev
    else ⟨ev ++ [Event.wslUnavailableMsg], clockCalls⟩
  else if env.platform = "linux" then
    syncExec env p dryRun rsyncCmd backupDir clockCalls ev
  else ⟨ev ++ [Event.unsupportedPlatformMsg env.platform], clockCalls⟩

/-- `SendRepo.sync_project` (lines 249–368): dry-run banner, one-shot
timestamp expansion of the backup dir, the pre-send hook (skipped on
dry-run, fatal on non-zero exit), then platform gating, transfer and the
post-send hook. -/
def syncProject (env : SyncEnv) (p : ProjectConfig) (dryRun includeEnv : Bool) : SyncRun :=
  let ev0 : List Event := if dryRun then [Event.dryRunBanner] else []
  let hasTs := truthyStr p.backupDir && hasSub (p.backupDir.getD "") tsPat
  let backupDir : Option String :=
    if hasTs then some (strReplace (p.backupDir.getD "") tsPat (env.clock 0)) else p.backupDir
  let clockCalls : Nat := if hasTs then 1 else 0
  if p.preSend.isSome && !dryRun then
    let c := p.preSend.getD ""
    let ev1 := ev0 ++ [Event.preSendRun (RunCmd.str c) p.path]
    if env.preSendExit = 0 then
      syncTransfer env p dryRun includeEnv backupDir clockCalls ev1
    else ⟨ev1 ++ [Event.preSendFailedMsg env.preSendExit], clockCalls⟩
  else syncTransfer env p dryRun includeEnv backupDir clockCalls ev0

/-! ## Global configuration, `sync_config` and `main` -/

structure ConfigSyncSpec where
  command : Option String
  deriving DecidableEq, Repr

structure GlobalConfig where
  projects : List (String × ProjectConfig)
  configSync : Option ConfigSyncSpec
  deriving DecidableEq, Repr

/-- `SendRepo.run_pre_send` (lines 192–210): the manual pre-send runner;
the command is executed natively as a shell string with the project's
source path as working directory, on every platform. -/
def runPreSendManual (env : SyncEnv) (cfg : GlobalConfig) (name : String) : List Event :=
  match List.lookup name cfg.projects with
  | none => [Event.projectNotFoundMsg name]
  | some p =>
    match p.preSend with
    | some c =>
      [Event.preSendRun (RunCmd.str c) p.path]
        ++ (if env.preSendExit = 0 then [] else [Event.preSendFailedMsg env.preSendExit])
    | none => [Event.noPreSendMsg name]

/-- `SendRepo.run_post_send` (lines 212–231): the manual post-send
runner; the command is wrapped for WSL on win32. -/
def runPostSendManual (env : SyncEnv) (cfg : GlobalConfig) (name : String) : List Event :=
  match List.lookup name cfg.projects with
  | none => [Event.projectNotFoundMsg name]
  | some p =>
    match p.postSend with
    | some c =>
      [Event.postSendRun (wrapPostSend env.platform c) env.postSendExit]
        ++ (if env.postSendExit = 0 then [] else [Event.postSendFailedMsg env.postSendExit])
    | none => [Event.noPostSendMsg name]

inductive CfgSyncEvent where
  | warnNoSection
  | errNoCommand
  | ranCommand (cmd : String) (code : Int)
  | okReloaded
  | failedExit (code : Int)
  deriving DecidableEq, Repr

/-- Outcome of `sync_config`: its diagnostics, whether the configuration
was reloaded, and a `sys.exit` code when it aborts the process. -/
structure CfgSyncResult where
  events : List CfgSyncEvent
  reloaded : Bool
  exitNow : Option Nat
  deriving DecidableEq, Repr

/-- `SendRepo.sync_config` (lines 102–129): a missing section or missing
command string is reported and the method returns; a run command that
exits zero triggers a reload; one that exits non-zero calls
`sys.exit(1)`. -/
def syncConfig (cfg : GlobalConfig) (cmdExit : Int) : CfgSyncResult :=
  match cfg.configSync with
  | none => ⟨[CfgSyncEvent.warnNoSection], false, none⟩
  | some s =>
    match s.command with
    | none => ⟨[CfgSyncEvent.errNoCommand], false, none⟩
    | some c =>
      if c = "" then ⟨[CfgSyncEvent.errNoCommand], false, none⟩
      else if cmdExit = 0 then
        ⟨[CfgSyncEvent.ranCommand c cmdExit, CfgSyncEvent.okReloaded], true, none⟩
      else
        ⟨[CfgSyncEvent.ranCommand c cmdExit, CfgSyncEvent.failedExit cmdExit], false, some 1⟩

/-- The CLI inputs of the project-synchronization path of `main` (the
mutually exclusive early-exit flags short-circuit before this path). -/
structure Args where
  syncConfigFlag : Bool
  project : Option String
  dryRun : Bool
  includeEnv : Bool
  deriving DecidableEq, Repr

/-- The observable outcome of `main`'s synchronization path. -/
structure MainOut where
  cfgSyncEvents : List CfgSyncEvent
  usedReload : Bool
  sync : Option SyncRun
  exitCode : Nat
  deriving DecidableEq, Repr

/-- `main` (lines 457–513) on the synchronization path: optionally run
`sync_config` (whose failure exits with status 1 and whose success
replaces the configuration before the project set is consulted), then
validate the project name against the current configuration (argparse
exits with status 2 on an invalid choice), run `sync_project`, and fall
off the end of `main` — so the process exit status is 0 whenever
`sync_project` returns, whatever it reported. -/
def mainRun (cfg reloadCfg : GlobalConfig) (env : SyncEnv) (cfgCmdExit : Int)
    (a : Args) : MainOut :=
  let r := if a.syncConfigFlag then syncConfig cfg cfgCmdExit else ⟨[], false, none⟩
  match r.exitNow with
  | some c => ⟨r.events, r.reloaded, none, c⟩
  | none =>
    let cur := if r.reloaded then reloadCfg else cfg
    match a.project with
    | none => ⟨r.events, r.reloaded, none, 0⟩
    | some name =>
      match List.lookup name cur.projects with
      | none => ⟨r.events, r.reloaded, none, 2⟩
      | some p => ⟨r.events, r.reloaded, some (syncProject env p a.dryRun a.includeEnv), 0⟩

/-! ## Trace observers -/

def isPreSendRunEvt : Event → Bool
  | Event.preSendRun _ _ => true
  | _ => false

def isPostSendRunEvt : Event → Bool
  | Event.postSendRun _ _ => true
  | _ => false

def isToolRunEvt : Event → Bool
  | Event.toolRun _ _ => true
  | _ => false

/-- Did the trace spawn a pre-send hook? -/
def hasPreSendRun (evs : List Event) : Bool := evs.any isPreSendRunEvt

/-- Did the trace spawn a post-send hook? -/
def hasPostSendRun (evs : List Event) : Bool := evs.any isPostSendRunEvt

/-- Did the trace invoke the mirroring tool? -/
def hasToolRun (evs : List Event) : Bool := evs.any isToolRunEvt

/-- The trace of the project synchronization a `main` run performed, if
any. -/
def syncEvents (o : MainOut) : List Event :=
  match o.sync with
  | some r => r.events
  | none => []

/-! ## C1: pre-send failure gating and the process exit status -/

def c1Project : ProjectConfig :=
  { path := "/home/u/app"
    remote := "user@host:/srv/app"
    exclude := []
    port := none
    sshJumpHost := none
    backupDir := none
    preSend := some "make build"
    postSend := some "deploy.sh" }

def c1Env : SyncEnv :=
  { platform := "linux"
    wslAvailable := false
    globalExcludeFile := none
    clock := fun _ => "2024-01-01_00-00-00"
    preSendExit := 1
    rsyncExit := 0
    postSendExit := 0 }

def c1Cfg : GlobalConfig := { projects := [("app", c1Project)], configSync := none }

def c1Args : Args :=
  { syncConfigFlag := false, project := some "app", dryRun := false, includeEnv := false }

/-- C1 counterexample: with a defined pre-send command exiting with
status 1 and dry-run unset, the mirroring tool and the post-send hook
are indeed never run and the failure is reported — but the orchestrator
process exits with status 0, not a non-zero status: `sync_project`
returns after printing the diagnostic and `main` falls off its end. -/
theorem c1_zero_exit_on_presend_failure :
    (mainRun c1Cfg c1Cfg c1Env 0 c1Args).exitCode = 0 ∧
    syncEvents (mainRun c1Cfg c1Cfg c1Env 0 c1Args) =
      [Event.preSendRun (RunCmd.str "make build") "/home/u/app",
       Event.preSendFailedMsg 1] := by
  constructor
  · decide
  · decide

/-- C1 amended: if a project's pre-send command is defined, dry-run is
not set, and the pre-send command exits non-zero, the mirroring tool is
never invoked and the post-send command is never executed, and the
orchestrator reports the failure through diagnostics — but the process
exit status is zero, not non-zero. -/
theorem c1_presend_failure_gate (cfg reloadCfg : GlobalConfig) (env : SyncEnv)
    (cfgCmdExit : Int) (a : Args) (name : String) (p : ProjectConfig) (c : String)
    (ha : a.syncConfigFlag = false) (hn : a.project = some name) (hd : a.dryRun = false)
    (hp : List.lookup name cfg.projects = some p)
    (hc : p.preSend = some c) (hx : env.preSendExit ≠ 0) :
    (mainRun cfg reloadCfg env cfgCmdExit a).exitCode = 0 ∧
    hasToolRun (syncEvents (mainRun cfg reloadCfg env cfgCmdExit a)) = false ∧
    hasPostSendRun (syncEvents (mainRun cfg reloadCfg env cfgCmdExit a)) = false ∧
    Event.preSendFailedMsg env.preSendExit ∈ syncEvents (mainRun cfg reloadCfg env cfgCmdExit a) := by
  have hmain : mainRun cfg reloadCfg env cfgCmdExit a =
      ⟨[], false, some (syncProject env p false a.includeEnv), 0⟩ := by
    simp [mainRun, ha, hn, hp, hd]
  have hsync : (syncProject env p false a.includeEnv).events =
      [Event.preSendRun (RunCmd.str c) p.path, Event.preSendFailedMsg env.preSendExit] := by
    simp [syncProject, hc, hx]
  rw [hmain]
  refine ⟨rfl, ?_, ?_, ?_⟩ <;>
    simp [syncEvents, hsync, hasToolRun, hasPostSendRun, isToolRunEvt, isPostSendRunEvt]

/-- C1 witness. -/
theorem c1_presend_failure_gate_witness :
    (mainRun c1Cfg c1Cfg c1Env 0 c1Args).exitCode = 0 ∧
    hasToolRun (syncEvents (mainRun c1Cfg c1Cfg c1Env 0 c1Args)) = false ∧
    hasPostSendRun (syncEvents (mainRun c1Cfg c1Cfg c1Env 0 c1Args)) = false ∧
    Event.preSendFailedMsg c1Env.preSendExit ∈ syncEvents (mainRun c1Cfg c1Cfg c1Env 0 c1Args) :=
  c1_presend_failure_gate c1Cfg c1Cfg c1Env 0 c1Args "app" c1Project "make build"
    rfl rfl rfl (by decide) rfl (by decide)

/-! ## C2: the WSL availability gate and the pre-send hook -/

def c2Project : ProjectConfig :=
  { path := "/home/u/app"
    remote := "user@host:/srv/app"
    exclude := []
    port := none
    sshJumpHost := none
    backupDir := none
    preSend := some "make"
    postSend := none }

def c2Env : SyncEnv :=
  { platform := "win32"
    wslAvailable := false
    globalExcludeFile := none
    clock := fun _ => "2024-01-01_00-00-00"
    preSendExit := 0
    rsyncExit := 0
    postSendExit := 0 }

/-- C2 counterexample: on win32 with WSL unavailable and a pre-send
command defined, the trace is the pre-send execution *followed by* the
remediation diagnostic — the pre-send hook (an external side effect) has
already run when the availability check aborts the synchronization. -/
theorem c2_presend_runs_before_wsl_check :
    (syncProject c2Env c2Project false false).events =
      [Event.preSendRun (RunCmd.str "make") "/home/u/app", Event.wslUnavailableMsg] := by
  decide

/-- C2 amended: on win32 with WSL unavailable, the synchronization
aborts with remediation guidance before the mirroring tool is invoked
and before any post-send hook — but only after the pre-send hook (when
defined and not in dry-run) has already been executed; the abort is not
before every external side effect. -/
theorem c2_wsl_gate (env : SyncEnv) (p : ProjectConfig) (dryRun includeEnv : Bool)
    (h1 : env.platform = "win32") (h2 : env.wslAvailable = false)
    (hpre : p.preSend = none ∨ dryRun = true ∨ env.preSendExit = 0) :
    hasToolRun (syncProject env p dryRun includeEnv).events = false ∧
    hasPostSendRun (syncProject env p dryRun includeEnv).events = false ∧
    Event.wslUnavailableMsg ∈ (syncProject env p dryRun includeEnv).events := by
  rcases hps : p.preSend with _ | c
  · cases dryRun <;>
      simp [syncProject, syncTransfer, hps, h1, h2, hasToolRun, hasPostSendRun,
        isToolRunEvt, isPostSendRunEvt]
  · cases dryRun
    · have hx : env.preSendExit = 0 := by
        rcases hpre with h | h | h
        · rw [hps] at h; cases h
        · cases h
        · exact h
      simp [syncProject, syncTransfer, hps, hx, h1, h2, hasToolRun, hasPostSendRun,
        isToolRunEvt, isPostSendRunEvt]
    · simp [syncProject, syncTransfer, hps, h1, h2, hasToolRun, hasPostSendRun,
        isToolRunEvt, isPostSendRunEvt]

/-- C2 witness. -/
theorem c2_wsl_gate_witness :
    hasToolRun (syncProject c2Env c2Project false false).events = false ∧
    hasPostSendRun (syncProject c2Env c2Project false false).events = false ∧
    Event.wslUnavailableMsg ∈ (syncProject c2Env c2Project false false).events :=
  c2_wsl_gate c2Env c2Project false false rfl rfl (Or.inr (Or.inr rfl))

/-! ## C6: dry-run behavior -/

/-- `syncExec` adds no pre-send event to a trace. -/
theorem hasPreSendRun_syncExec (env : SyncEnv) (p : ProjectConfig) (dryRun : Bool)
    (command : List String) (backupDir : Option String) (clockCalls : Nat) (ev : List Event) :
    hasPreSendRun (syncExec env p dryRun command backupDir clockCalls ev).events
      = hasPreSendRun ev := by
  unfold syncExec
  split_ifs <;> simp [hasPreSendRun, List.any_append, isPreSendRunEvt]

/-- `syncTransfer` adds no pre-send event to a trace. -/
theorem hasPreSendRun_syncTransfer (env : SyncEnv) (p : ProjectConfig)
    (dryRun includeEnv : Bool) (backupDir : Option String) (clockCalls : Nat)
    (ev : List Event) :
    hasPreSendRun (syncTransfer env p dryRun includeEnv backupDir clockCalls ev).events
      = hasPreSendRun ev := by
  simp only [syncTransfer]
  split_ifs
  · exact hasPreSendRun_syncExec ..
  · simp [hasPreSendRun, List.any_append, isPreSendRunEvt]
  · exact hasPreSendRun_syncExec ..
  · simp [hasPreSendRun, List.any_append, isPreSendRunEvt]

/-- On dry-run, `syncExec` adds no post-send event to a trace. -/
theorem hasPostSendRun_syncExec_dry (env : SyncEnv) (p : ProjectConfig)
    (command : List String) (backupDir : Option String) (clockCalls : Nat) (ev : List Event) :
    hasPostSendRun (syncExec env p true command backupDir clockCalls ev).events
      = hasPostSendRun ev := by
  unfold syncExec
  split_ifs <;>
    simp_all [hasPostSendRun, List.any_append, isPostSendRunEvt]

/-- On dry-run, `syncTransfer` adds no post-send event to a trace. -/
theorem hasPostSendRun_syncTransfer_dry (env : SyncEnv) (p : ProjectConfig)
    (includeEnv : Bool) (backupDir : Option String) (clockCalls : Nat) (ev : List Event) :
    hasPostSendRun (syncTransfer env p true includeEnv backupDir clockCalls ev).events
      = hasPostSendRun ev := by
  simp only [syncTransfer]
  split_ifs
  · exact hasPostSendRun_syncExec_dry ..
  · simp [hasPostSendRun, List.any_append, isPostSendRunEvt]
  · exact hasPostSendRun_syncExec_dry ..
  · simp [hasPostSendRun, List.any_append, isPostSendRunEvt]

/-- On dry-run, `sync_project` reduces to the transfer stage over the
banner-only trace: the pre-send hook is structurally skipped. -/
theorem syncProject_dryRun_eq (env : SyncEnv) (p : ProjectConfig) (includeEnv : Bool) :
    syncProject env p true includeEnv =
      syncTransfer env p true includeEnv
        (if truthyStr p.backupDir && hasSub (p.backupDir.getD "") tsPat then
           some (strReplace (p.backupDir.getD "") tsPat (env.clock 0)) else p.backupDir)
        (if truthyStr p.backupDir && hasSub (p.backupDir.getD "") tsPat then 1 else 0)
        [Event.dryRunBanner] := by
  simp [syncProject]

/-- C6: with dry-run set, no pre-send and no post-send hook is ever
executed, the assembled vector contains `--dry-run`, and the vector is
exactly the non-dry-run vector with `--dry-run` inserted after the four
base flags — no other change to command assembly. -/
theorem c6_dry_run (env : SyncEnv) (p : ProjectConfig) (includeEnv : Bool)
    (platform : String) (gx backupDir : Option String) :
    hasPreSendRun (syncProject env p true includeEnv).events = false ∧
    hasPostSendRun (syncProject env p true includeEnv).events = false ∧
    "--dry-run" ∈ buildRsyncCmd platform gx p true includeEnv backupDir ∧
    buildRsyncCmd platform gx p true includeEnv backupDir =
      baseCmd ++ ["--dry-run"]
        ++ List.drop 4 (buildRsyncCmd platform gx p false includeEnv backupDir) := by
  refine ⟨?_, ?_, ?_, rfl⟩
  · rw [syncProject_dryRun_eq, hasPreSendRun_syncTransfer]
    simp [hasPreSendRun, isPreSendRunEvt]
  · rw [syncProject_dryRun_eq, hasPostSendRun_syncTransfer_dry]
    simp [hasPostSendRun, isPostSendRunEvt]
  · simp [buildRsyncCmd, dryRunSeg]

/-! ## C7: one-shot timestamp expansion of the backup directory -/

/-- The transfer stage always records the mirroring-tool invocation with
the command it was given. -/
theorem syncExec_mem_toolRun (env : SyncEnv) (p : ProjectConfig) (dryRun : Bool)
    (command : List String) (backupDir : Option String) (clockCalls : Nat) (ev : List Event) :
    Event.toolRun command env.rsyncExit
      ∈ (syncExec env p dryRun command backupDir clockCalls ev).events := by
  simp only [syncExec]
  split_ifs <;> simp

/-- The transfer stage logs the (already expanded) backup directory when
it is truthy. -/
theorem syncExec_mem_logBackup (env : SyncEnv) (p : ProjectConfig) (dryRun : Bool)
    (command : List String) (backupDir : Option String) (clockCalls : Nat) (ev : List Event)
    (h : truthyStr backupDir = true) :
    Event.logBackup (backupDir.getD "")
      ∈ (syncExec env p dryRun command backupDir clockCalls ev).events := by
  simp only [syncExec]
  split_ifs <;> simp_all

/-- The transfer stage never reads the clock: it passes the clock-call
count through. -/
theorem syncExec_clockCalls (env : SyncEnv) (p : ProjectConfig) (dryRun : Bool)
    (command : List String) (backupDir : Option String) (clockCalls : Nat) (ev : List Event) :
    (syncExec env p dryRun command backupDir clockCalls ev).clockCalls = clockCalls := by
  simp only [syncExec]
  split_ifs <;> rfl

/-- On linux the platform gate passes the bare vector through to the
execution stage. -/
theorem syncTransfer_linux (env : SyncEnv) (p : ProjectConfig) (dryRun includeEnv : Bool)
    (backupDir : Option String) (clockCalls : Nat) (ev : List Event)
    (h : env.platform = "linux") :
    syncTransfer env p dryRun includeEnv backupDir clockCalls ev =
      syncExec env p dryRun
        (buildRsyncCmd env.platform env.globalExcludeFile p dryRun includeEnv backupDir)
        backupDir clockCalls ev := by
  simp [syncTransfer, h]

/-- On win32 with WSL available the platform gate prefixes the vector
with `wsl`. -/
theorem syncTransfer_win32 (env : SyncEnv) (p : ProjectConfig) (dryRun includeEnv : Bool)
    (backupDir : Option String) (clockCalls : Nat) (ev : List Event)
    (h1 : env.platform = "win32") (h2 : env.wslAvailable = true) :
    syncTransfer env p dryRun includeEnv backupDir clockCalls ev =
      syncExec env p dryRun
        ("wsl" :: buildRsyncCmd env.platform env.globalExcludeFile p dryRun includeEnv backupDir)
        backupDir clockCalls ev := by
  simp [syncTransfer, h1, h2]

/-- When the pre-send hook does not fail (absent, dry-run, or exit 0),
`sync_project` reaches the transfer stage with the once-expanded backup
directory and the clock-call count of the expansion. -/
theorem syncProject_pre_ok (env : SyncEnv) (p : ProjectConfig) (dryRun includeEnv : Bool)
    (hpre : p.preSend = none ∨ dryRun = true ∨ env.preSendExit = 0) :
    ∃ ev, syncProject env p dryRun includeEnv =
      syncTransfer env p dryRun includeEnv
        (if truthyStr p.backupDir && hasSub (p.backupDir.getD "") tsPat then
           some (strReplace (p.backupDir.getD "") tsPat (env.clock 0)) else p.backupDir)
        (if truthyStr p.backupDir && hasSub (p.backupDir.getD "") tsPat then 1 else 0)
        ev := by
  rcases hps : p.preSend with _ | c
  · refine ⟨if dryRun then [Event.dryRunBanner] else [], ?_⟩
    simp [syncProject, hps]
  · cases dryRun
    · have hx : env.preSendExit = 0 := by
        rcases hpre with h | h | h
        · rw [hps] at h; cases h
        · cases h
        · exact h
      refine ⟨[Event.preSendRun (RunCmd.str c) p.path], ?_⟩
      simp [syncProject, hps, hx]
    · refine ⟨[Event.dryRunBanner], ?_⟩
      simp [syncProject, hps]

/-- C7: a backup-directory template containing the timestamp placeholder
is expanded exactly once per synchronization invocation (the clock is
read exactly once), and both later uses of the backup directory — the
logged value and the `--backup-dir=` argument of the assembled vector —
observe that same expanded value. -/
theorem c7_backup_timestamp_once (env : SyncEnv) (p : ProjectConfig)
    (dryRun includeEnv : Bool) (t : String)
    (hb : p.backupDir = some t) (ht : t ≠ "") (hts : hasSub t tsPat = true)
    (hv : strReplace t tsPat (env.clock 0) ≠ "")
    (hpre : p.preSend = none ∨ dryRun = true ∨ env.preSendExit = 0)
    (hplat : env.platform = "linux" ∨ (env.platform = "win32" ∧ env.wslAvailable = true)) :
    (syncProject env p dryRun includeEnv).clockCalls = 1 ∧
    Event.logBackup (strReplace t tsPat (env.clock 0))
      ∈ (syncProject env p dryRun includeEnv).events ∧
    ("--backup-dir=" ++ strReplace t tsPat (env.clock 0))
      ∈ buildRsyncCmd env.platform env.globalExcludeFile p dryRun includeEnv
          (some (strReplace t tsPat (env.clock 0))) ∧
    (env.platform = "linux" →
      Event.toolRun
          (buildRsyncCmd env.platform env.globalExcludeFile p dryRun includeEnv
            (some (strReplace t tsPat (env.clock 0)))) env.rsyncExit
        ∈ (syncProject env p dryRun includeEnv).events) ∧
    (env.platform = "win32" →
      Event.toolRun
          ("wsl" :: buildRsyncCmd env.platform env.globalExcludeFile p dryRun includeEnv
            (some (strReplace t tsPat (env.clock 0)))) env.rsyncExit
        ∈ (syncProject env p dryRun includeEnv).events) := by
  have hbd : (if truthyStr p.backupDir && hasSub (p.backupDir.getD "") tsPat then
       some (strReplace (p.backupDir.getD "") tsPat (env.clock 0)) else p.backupDir)
      = some (strReplace t tsPat (env.clock 0)) := by
    rw [hb]
    simp [truthyStr, hts, ht]
  have hcc : (if truthyStr p.backupDir && hasSub (p.backupDir.getD "") tsPat
      then (1 : Nat) else 0) = 1 := by
    rw [hb]
    simp [truthyStr, hts, ht]
  obtain ⟨ev, heq⟩ := syncProject_pre_ok env p dryRun includeEnv hpre
  rw [hbd, hcc] at heq
  have hvt : truthyStr (some (strReplace t tsPat (env.clock 0))) = true := by
    simp [truthyStr, hv]
  refine ⟨?_, ?_, ?_, ?_, ?_⟩
  · rw [heq]
    rcases hplat with h | ⟨h1, h2⟩
    · rw [syncTransfer_linux env p dryRun includeEnv _ _ _ h, syncExec_clockCalls]
    · rw [syncTransfer_win32 env p dryRun includeEnv _ _ _ h1 h2, syncExec_clockCalls]
  · rw [heq]
    rcases hplat with h | ⟨h1, h2⟩
    · rw [syncTransfer_linux env p dryRun includeEnv _ _ _ h]
      have := syncExec_mem_logBackup env p dryRun
        (buildRsyncCmd env.platform env.globalExcludeFile p dryRun includeEnv
          (some (strReplace t tsPat (env.clock 0))))
        (some (strReplace t tsPat (env.clock 0))) 1 ev hvt
      simpa using this
    · rw [syncTransfer_win32 env p dryRun includeEnv _ _ _ h1 h2]
      have := syncExec_mem_logBackup env p dryRun
        ("wsl" :: buildRsyncCmd env.platform env.globalExcludeFile p dryRun includeEnv
          (some (strReplace t tsPat (env.clock 0))))
        (some (strReplace t tsPat (env.clock 0))) 1 ev hvt
      simpa using this
  · simp [buildRsyncCmd, backupSeg, hvt]
  · intro h
    rw [heq, syncTransfer_linux env p dryRun includeEnv _ _ _ h]
    exact syncExec_mem_toolRun ..
  · intro h1
    have h2 : env.wslAvailable = true := by
      rcases hplat with h | ⟨_, h2⟩
      · exact absurd (h1.symm.trans h) (by decide)
      · exact h2
    rw [heq, syncTransfer_win32 env p dryRun includeEnv _ _ _ h1 h2]
    exact syncExec_mem_toolRun ..

def c7Project : ProjectConfig :=
  { path := "/home/u/app"
    remote := "user@host:/srv/app"
    exclude := []
    port := none
    sshJumpHost := none
    backupDir := some "/bk/\x7btimestamp\x7d"
    preSend := none
    postSend := none }

def c7Env : SyncEnv :=
  { platform := "linux"
    wslAvailable := false
    globalExcludeFile := none
    clock := fun _ => "2024-01-01_00-00-00"
    preSendExit := 0
    rsyncExit := 0
    postSendExit := 0 }

/-- C7 witness. -/
theorem c7_backup_timestamp_once_witness :
    (syncProject c7Env c7Project false false).clockCalls = 1 ∧
    Event.logBackup (strReplace "/bk/\x7btimestamp\x7d" tsPat (c7Env.clock 0))
      ∈ (syncProject c7Env c7Project false false).events ∧
    ("--backup-dir=" ++ strReplace "/bk/\x7btimestamp\x7d" tsPat (c7Env.clock 0))
      ∈ buildRsyncCmd c7Env.platform c7Env.globalExcludeFile c7Project false false
          (some (strReplace "/bk/\x7btimestamp\x7d" tsPat (c7Env.clock 0))) ∧
    (c7Env.platform = "linux" →
      Event.toolRun
          (buildRsyncCmd c7Env.platform c7Env.globalExcludeFile c7Project false false
            (some (strReplace "/bk/\x7btimestamp\x7d" tsPat (c7Env.clock 0)))) c7Env.rsyncExit
        ∈ (syncProject c7Env c7Project false false).events) ∧
    (c7Env.platform = "win32" →
      Event.toolRun
          ("wsl" :: buildRsyncCmd c7Env.platform c7Env.globalExcludeFile c7Project false false
            (some (strReplace "/bk/\x7btimestamp\x7d" tsPat (c7Env.clock 0)))) c7Env.rsyncExit
        ∈ (syncProject c7Env c7Project false false).events) :=
  c7_backup_timestamp_once c7Env c7Project false false "/bk/\x7btimestamp\x7d"
    rfl (by decide) (by decide) (by decide) (Or.inl rfl) (Or.inl rfl)

/-! ## C9: hook command wrapping per platform -/

/-- Every pre-send spawn in the trace runs the configured pre-send
command natively as a plain shell string (never wrapped). -/
def preEventsShape (pre : Option String) (evs : List Event) : Bool :=
  evs.all fun e =>
    match e with
    | Event.preSendRun rc _ =>
      match pre with
      | some s => decide (rc = RunCmd.str s)
      | none => false
    | _ => true

/-- Every post-send spawn in the trace runs the configured post-send
command wrapped as `['wsl', 'bash', '-c', cmd]` on win32 and as a plain
shell string on any other platform. -/
def postEventsShape (platform : String) (post : Option String) (evs : List Event) : Bool :=
  evs.all fun e =>
    match e with
    | Event.postSendRun rc _ =>
      match post with
      | some s =>
        if platform = "win32" then decide (rc = RunCmd.argv ["wsl", "bash", "-c", s])
        else decide (rc = RunCmd.str s)
      | none => false
    | _ => true

/-- The execution stage adds no pre-send spawn. -/
theorem preShape_syncExec (pre : Option String) (env : SyncEnv) (p : ProjectConfig)
    (dryRun : Bool) (command : List String) (backupDir : Option String)
    (clockCalls : Nat) (ev : List Event) :
    preEventsShape pre (syncExec env p dryRun command backupDir clockCalls ev).events
      = preEventsShape pre ev := by
  simp only [syncExec]
  split_ifs <;> simp [preEventsShape, List.all_append]

/-- The execution stage adds no pre-send spawn (transfer-stage form). -/
theorem preShape_syncTransfer (pre : Option String) (env : SyncEnv) (p : ProjectConfig)
    (dryRun includeEnv : Bool) (backupDir : Option String) (clockCalls : Nat)
    (ev : List Event) :
    preEventsShape pre (syncTransfer env p dryRun includeEnv backupDir clockCalls ev).events
      = preEventsShape pre ev := by
  simp only [syncTransfer]
  split_ifs
  · rw [preShape_syncExec]
  · simp [preEventsShape, List.all_append]
  · rw [preShape_syncExec]
  · simp [preEventsShape, List.all_append]

/-- Every post-send spawn the execution stage adds carries the
configured command in the platform's wrapping. -/
theorem postShape_syncExec (env : SyncEnv) (p : ProjectConfig) (dryRun : Bool)
    (command : List String) (backupDir : Option String) (clockCalls : Nat) (ev : List Event) :
    postEventsShape env.platform p.postSend
        (syncExec env p dryRun command backupDir clockCalls ev).events
      = postEventsShape env.platform p.postSend ev := by
  rcases hps : p.postSend with _ | s
  · simp only [syncExec]
    split_ifs <;> simp_all [postEventsShape, List.all_append, hps]
  · by_cases hw : env.platform = "win32" <;>
      · simp only [syncExec]
        split_ifs <;> simp_all [postEventsShape, List.all_append, wrapPostSend, hps, hw]

/-- Transfer-stage form of `postShape_syncExec`. -/
theorem postShape_syncTransfer (env : SyncEnv) (p : ProjectConfig)
    (dryRun includeEnv : Bool) (backupDir : Option String) (clockCalls : Nat)
    (ev : List Event) :
    postEventsShape env.platform p.postSend
        (syncTransfer env p dryRun includeEnv backupDir clockCalls ev).events
      = postEventsShape env.platform p.postSend ev := by
  simp only [syncTransfer]
  split_ifs
  · rw [postShape_syncExec]
  · simp [postEventsShape, List.all_append]
  · rw [postShape_syncExec]
  · simp [postEventsShape, List.all_append]

/-- C9: within a synchronization and in the manual runners alike, every
post-send spawn executes inside the tool environment as
`['wsl', 'bash', '-c', command]` on win32 and as a plain native shell
string elsewhere, while every pre-send spawn is a plain native shell
string on every platform. -/
theorem c9_hook_wrapping (env : SyncEnv) (p : ProjectConfig) (dryRun includeEnv : Bool)
    (cfg : GlobalConfig) (name : String)
    (hp : List.lookup name cfg.projects = some p) :
    preEventsShape p.preSend (syncProject env p dryRun includeEnv).events = true ∧
    preEventsShape p.preSend (runPreSendManual env cfg name) = true ∧
    postEventsShape env.platform p.postSend (syncProject env p dryRun includeEnv).events = true ∧
    postEventsShape env.platform p.postSend (runPostSendManual env cfg name) = true := by
  refine ⟨?_, ?_, ?_, ?_⟩
  · rcases hc : p.preSend with _ | c
    · cases dryRun <;>
        · simp only [syncProject, hc]
          simp [preShape_syncTransfer]
          simp [preEventsShape]
    · cases dryRun
      · by_cases hx : env.preSendExit = 0 <;>
          · simp only [syncProject, hc]
            simp [hx, preShape_syncTransfer]
            simp [preEventsShape]
      · simp only [syncProject, hc]
        simp [preShape_syncTransfer]
        simp [preEventsShape]
  · rcases hc : p.preSend with _ | c <;>
      by_cases hx : env.preSendExit = 0 <;>
        simp [runPreSendManual, hp, hc, hx, preEventsShape]
  · rcases hc : p.preSend with _ | c
    · cases dryRun <;>
        · simp only [syncProject, hc]
          simp [postShape_syncTransfer]
          simp [postEventsShape]
    · cases dryRun
      · by_cases hx : env.preSendExit = 0 <;>
          · simp only [syncProject, hc]
            simp [hx, postShape_syncTransfer]
            simp [postEventsShape]
      · simp only [syncProject, hc]
        simp [postShape_syncTransfer]
        simp [postEventsShape]
  · rcases hc : p.postSend with _ | s
    · simp [runPostSendManual, hp, hc, postEventsShape]
    · by_cases hw : env.platform = "win32" <;>
        by_cases hx : env.postSendExit = 0 <;>
          simp [runPostSendManual, hp, hc, hw, hx, postEventsShape, wrapPostSend]

def c9Project : ProjectConfig :=
  { path := "/home/u/app"
    remote := "user@host:/srv/app"
    exclude := []
    port := none
    sshJumpHost := none
    backupDir := none
    preSend := some "make build"
    postSend := some "systemctl restart app" }

def c9Cfg : GlobalConfig := { projects := [("app", c9Project)], configSync := none }

def c9Env : SyncEnv :=
  { platform := "win32"
    wslAvailable := true
    globalExcludeFile := none
    clock := fun _ => "2024-01-01_00-00-00"
    preSendExit := 0
    rsyncExit := 0
    postSendExit := 0 }

/-- C9 witness. -/
theorem c9_hook_wrapping_witness :
    preEventsShape c9Project.preSend (syncProject c9Env c9Project false false).events = true ∧
    preEventsShape c9Project.preSend (runPreSendManual c9Env c9Cfg "app") = true ∧
    postEventsShape c9Env.platform c9Project.postSend
      (syncProject c9Env c9Project false false).events = true ∧
    postEventsShape c9Env.platform c9Project.postSend
      (runPostSendManual c9Env c9Cfg "app") = true :=
  c9_hook_wrapping c9Env c9Project false false c9Cfg "app" (by decide)

/-! ## C10: configuration-sync gating of the process -/

/-- C10: a `config_sync` section without its command string, or an
absent section under the sync-config flag, is reported and the operation
returns without exiting the process and without reloading the
configuration, and the requested project synchronization still proceeds
from the unchanged configuration; the process terminates with exit
status 1 exactly when a started configuration-sync command exits
non-zero. -/
theorem c10_config_sync_gating (cfg reloadCfg : GlobalConfig) (env : SyncEnv)
    (cfgCmdExit : Int) (name : String) (p : ProjectConfig) (dry inc : Bool) (a : Args)
    (hp : List.lookup name cfg.projects = some p)
    (ha : a = ⟨true, some name, dry, inc⟩) :
    (cfg.configSync = none →
      (mainRun cfg reloadCfg env cfgCmdExit a).cfgSyncEvents = [CfgSyncEvent.warnNoSection] ∧
      (mainRun cfg reloadCfg env cfgCmdExit a).usedReload = false ∧
      (mainRun cfg reloadCfg env cfgCmdExit a).sync = some (syncProject env p dry inc) ∧
      (mainRun cfg reloadCfg env cfgCmdExit a).exitCode = 0) ∧
    (∀ s, cfg.configSync = some s → (s.command = none ∨ s.command = some "") →
      (mainRun cfg reloadCfg env cfgCmdExit a).cfgSyncEvents = [CfgSyncEvent.errNoCommand] ∧
      (mainRun cfg reloadCfg env cfgCmdExit a).usedReload = false ∧
      (mainRun cfg reloadCfg env cfgCmdExit a).sync = some (syncProject env p dry inc) ∧
      (mainRun cfg reloadCfg env cfgCmdExit a).exitCode = 0) ∧
    (∀ s c, cfg.configSync = some s → s.command = some c → c ≠ "" → cfgCmdExit ≠ 0 →
      (mainRun cfg reloadCfg env cfgCmdExit a).exitCode = 1 ∧
      (mainRun cfg reloadCfg env cfgCmdExit a).sync = none) ∧
    ((mainRun cfg reloadCfg env cfgCmdExit a).exitCode = 1 →
      ∃ s c, cfg.configSync = some s ∧ s.command = some c ∧ c ≠ "" ∧ cfgCmdExit ≠ 0) := by
  subst ha
  rcases hcs : cfg.configSync with _ | s
  · refine ⟨fun _ => ?_, fun s h => ?_, fun s c h => ?_, fun h1 => ?_⟩
    · simp [mainRun, syncConfig, hcs, hp]
    · exact Option.noConfusion h
    · exact Option.noConfusion h
    · exfalso
      have h0 : (mainRun cfg reloadCfg env cfgCmdExit
          ⟨true, some name, dry, inc⟩).exitCode = 0 := by
        simp [mainRun, syncConfig, hcs, hp]
      rw [h0] at h1; cases h1
  · rcases hcmd : s.command with _ | c
    · refine ⟨fun h => ?_, fun s' h _ => ?_, fun s' c' h hc' => ?_, fun h1 => ?_⟩
      · exact Option.noConfusion h
      · simp [mainRun, syncConfig, hcs, hcmd, hp]
      · have hs : s' = s := by injection h with h2; exact h2.symm
        rw [hs, hcmd] at hc'; cases hc'
      · exfalso
        have h0 : (mainRun cfg reloadCfg env cfgCmdExit
            ⟨true, some name, dry, inc⟩).exitCode = 0 := by
          simp [mainRun, syncConfig, hcs, hcmd, hp]
        rw [h0] at h1; cases h1
    · by_cases hce : c = ""
      · refine ⟨fun h => ?_, fun s' h _ => ?_, fun s' c' h hc' hne _ => ?_, fun h1 => ?_⟩
        · exact Option.noConfusion h
        · simp [mainRun, syncConfig, hcs, hcmd, hce, hp]
        · have hs : s' = s := by injection h with h2; exact h2.symm
          rw [hs, hcmd] at hc'
          have hcc : c' = c := by injection hc' with h3; exact h3.symm
          rw [hcc] at hne
          exact absurd hce hne
        · exfalso
          have h0 : (mainRun cfg reloadCfg env cfgCmdExit
              ⟨true, some name, dry, inc⟩).exitCode = 0 := by
            simp [mainRun, syncConfig, hcs, hcmd, hce, hp]
          rw [h0] at h1; cases h1
      · by_cases hex : cfgCmdExit = 0
        · refine ⟨fun h => ?_, fun s' h hbad => ?_, fun s' c' h hc' _ hne => ?_, fun h1 => ?_⟩
          · exact Option.noConfusion h
          · have hs : s' = s := by injection h with h2; exact h2.symm
            rw [hs, hcmd] at hbad
            rcases hbad with hbad | hbad
            · cases hbad
            · have hcc : c = "" := by injection hbad with h3
              exact absurd hcc hce
          · exact absurd hex hne
          · exfalso
            have h0 : (mainRun cfg reloadCfg env cfgCmdExit
                ⟨true, some name, dry, inc⟩).exitCode ≠ 1 := by
              rcases hl : List.lookup name reloadCfg.projects with _ | q <;>
                simp [mainRun, syncConfig, hcs, hcmd, hce, hex, hl]
            exact h0 h1
        · refine ⟨fun h => ?_, fun s' h hbad => ?_, fun s' c' h hc' _ _ => ?_, fun _ => ?_⟩
          · exact Option.noConfusion h
          · have hs : s' = s := by injection h with h2; exact h2.symm
            rw [hs, hcmd] at hbad
            rcases hbad with hbad | hbad
            · cases hbad
            · have hcc : c = "" := by injection hbad with h3
              exact absurd hcc hce
          · simp [mainRun, syncConfig, hcs, hcmd, hce, hex]
          · exact ⟨s, c, rfl, hcmd, hce, hex⟩

/-! ## String and list helpers for the argument-vector claims -/

theorem data_append (a b : String) : (a ++ b).data = a.data ++ b.data := rfl

theorem str_length_append (a b : String) : (a ++ b).length = a.length + b.length := by
  show (a.data ++ b.data).length = a.data.length + b.data.length
  exact List.length_append a.data b.data

/-- A concatenation starting from a longer string never equals a shorter
one. -/
theorem append_ne_short (a b c : String) (h : c.length < a.length) : a ++ b ≠ c := by
  intro he
  have hl := congrArg String.length he
  rw [str_length_append] at hl
  omega

theorem str_ne_of_head {a b : String} (h : a.data.head? ≠ b.data.head?) : a ≠ b :=
  fun he => h (he ▸ rfl)

theorem str_ne_of_get2 {a b : String} (h : a.data[2]? ≠ b.data[2]?) : a ≠ b :=
  fun he => h (he ▸ rfl)

theorem head_data_append {a : String} (b : String) {ch : Char}
    (h : a.data.head? = some ch) : (a ++ b).data.head? = some ch := by
  rw [data_append]
  cases hd : a.data
  · rw [hd] at h; cases h
  · rw [hd] at h
    simpa using h

/-- Dropping a prefix whose elements all satisfy the predicate. -/
theorem dropWhile_append_of_all {α : Type} (p : α → Bool) (l₁ l₂ : List α)
    (h : ∀ x ∈ l₁, p x = true) :
    (l₁ ++ l₂).dropWhile p = l₂.dropWhile p := by
  induction l₁ with
  | nil => rfl
  | cons a t ih =>
    have hpa := h a (by simp)
    have ht : ∀ x ∈ t, p x = true := fun x hx => h x (by simp [hx])
    simp [List.dropWhile_cons, hpa, ih ht]

/-- Occurrence count of an argument in an argument vector. -/
def countArg (x : String) : List String → Nat
  | [] => 0
  | a :: l => (if a = x then 1 else 0) + countArg x l

theorem countArg_append (x : String) (l₁ l₂ : List String) :
    countArg x (l₁ ++ l₂) = countArg x l₁ + countArg x l₂ := by
  induction l₁ with
  | nil => simp [countArg]
  | cons a t ih => simp [countArg, ih]; omega

theorem countArg_eq_zero {x : String} {l : List String} (h : ∀ a ∈ l, a ≠ x) :
    countArg x l = 0 := by
  induction l with
  | nil => rfl
  | cons a t ih =>
    rw [countArg, if_neg (h a (by simp)), ih]
    intro b hb
    exact h b (by simp [hb])

/-- The argument following the first occurrence of `flag`. -/
def afterFlag (flag : String) (cmd : List String) : Option String :=
  ((cmd.dropWhile fun s => s != flag).drop 1).head?

/-! ### Shapes of the individual vector segments -/

theorem mem_backupSeg {x : String} {bd : Option String} (h : x ∈ backupSeg bd) :
    x = "--backup" ∨ ∃ d, x = "--backup-dir=" ++ d := by
  simp only [backupSeg] at h
  split_ifs at h
  · simp only [List.mem_cons, List.not_mem_nil, or_false] at h
    rcases h with h | h
    · exact Or.inl h
    · exact Or.inr ⟨_, h⟩
  · cases h

theorem mem_sshSeg {x : String} {j : Option String} {pr : Option Nat}
    (h : x ∈ sshSeg j pr) :
    x = "-e" ∨ x.data.head? = some 's' := by
  simp only [sshSeg] at h
  split_ifs at h
  · simp only [List.mem_cons, List.not_mem_nil, or_false] at h
    rcases h with h | h
    · exact Or.inl h
    · refine Or.inr ?_
      rw [h]
      have h1 : ("ssh -J " : String).data.head? = some 's' := by decide
      exact head_data_append _ (head_data_append _ h1)
  · simp only [List.mem_cons, List.not_mem_nil, or_false] at h
    rcases h with h | h
    · exact Or.inl h
    · refine Or.inr ?_
      rw [h]
      have h1 : ("ssh -J " : String).data.head? = some 's' := by decide
      exact head_data_append _ (head_data_append _ h1)
  · simp only [List.mem_cons, List.not_mem_nil, or_false] at h
    rcases h with h | h
    · exact Or.inl h
    · refine Or.inr ?_
      rw [h]
      have h1 : ("ssh -p " : String).data.head? = some 's' := by decide
      exact head_data_append _ h1
  · simp at h

theorem wsl_path_cases (pl s : String) :
    windowsToWslPath pl s = s ∨ (windowsToWslPath pl s).data.head? = some '/' := by
  unfold windowsToWslPath
  split_ifs with h
  · split
    · split_ifs with h2
      · refine Or.inr ?_
        exact head_data_append _ (head_data_append _ (head_data_append _ (by decide)))
      · exact Or.inl rfl
    · exact Or.inl rfl
  · exact Or.inl rfl

theorem srcArg_cases (pl s : String) :
    srcArg pl s = s ∨ (srcArg pl s).data.head? = some '/' := by
  unfold srcArg
  split_ifs
  · exact wsl_path_cases pl s
  · exact Or.inl rfl

theorem mem_excludeFromSeg {x pl : String} {gx : Option String}
    (h : x ∈ excludeFromSeg pl gx) :
    x = "--exclude-from" ∨ ∃ f, gx = some f ∧ (x = f ∨ x.data.head? = some '/') := by
  rcases gx with _ | f
  · simp [excludeFromSeg, truthyStr] at h
  · simp only [excludeFromSeg] at h
    split_ifs at h with h1 h2
    · simp only [List.mem_cons, List.not_mem_nil, or_false, Option.getD_some] at h
      rcases h with h | h
      · exact Or.inl h
      · rcases wsl_path_cases pl f with hw | hw
        · exact Or.inr ⟨f, rfl, Or.inl (by rw [h, hw])⟩
        · exact Or.inr ⟨f, rfl, Or.inr (by rw [h]; exact hw)⟩
    · simp only [List.mem_cons, List.not_mem_nil, or_false, Option.getD_some] at h
      rcases h with h | h
      · exact Or.inl h
      · exact Or.inr ⟨f, rfl, Or.inl h⟩
    · cases h

theorem mem_excludeSeg {x : String} {pats : List String} (h : x ∈ excludeSeg pats) :
    x = "--exclude" ∨ x ∈ pats := by
  induction pats with
  | nil => simp [excludeSeg] at h
  | cons q ps ih =>
    simp only [excludeSeg, List.mem_cons] at h
    rcases h with h | h | h
    · exact Or.inl h
    · exact Or.inr (by simp [h])
    · rcases ih h with h2 | h2
      · exact Or.inl h2
      · exact Or.inr (by simp [h2])

/-- Everything before the transport segment in the assembled vector. -/
theorem mem_preSegs {x : String} {dryRun : Bool} {backupDir : Option String}
    (h : x ∈ baseCmd ++ dryRunSeg dryRun ++ backupSeg backupDir) :
    x ∈ baseCmd ∨ x = "--dry-run" ∨ x = "--backup" ∨ ∃ d, x = "--backup-dir=" ++ d := by
  rcases List.mem_append.mp h with h | h
  · rcases List.mem_append.mp h with h | h
    · exact Or.inl h
    · cases dryRun
      · simp [dryRunSeg] at h
      · simp only [dryRunSeg, if_pos, List.mem_singleton] at h
        exact Or.inr (Or.inl h)
  · rcases mem_backupSeg h with h | h
    · exact Or.inr (Or.inr (Or.inl h))
    · exact Or.inr (Or.inr (Or.inr h))

/-! ## C5: the ssh transport override -/

/-- Re-association of the assembled vector around the transport
segment. -/
theorem buildRsyncCmd_split (platform : String) (gx : Option String) (p : ProjectConfig)
    (dryRun includeEnv : Bool) (backupDir : Option String) :
    buildRsyncCmd platform gx p dryRun includeEnv backupDir =
      (baseCmd ++ dryRunSeg dryRun ++ backupSeg backupDir)
        ++ (sshSeg p.sshJumpHost p.port
          ++ (includeEnvSeg includeEnv ++ excludeFromSeg platform gx ++ excludeSeg p.exclude
              ++ [srcArg platform p.path, p.remote])) := by
  simp [buildRsyncCmd, List.append_assoc]

theorem sshSeg_both {j : String} {n : Nat} (hjne : j ≠ "") (hnne : n ≠ 0) :
    sshSeg (some j) (some n) = ["-e", "ssh -J " ++ j ++ (" -p " ++ toString n)] := by
  simp [sshSeg, truthyStr, truthyNat, hjne, hnne]

theorem sshSeg_port {j : Option String} {n : Nat}
    (hj : j = none ∨ j = some "") (hnne : n ≠ 0) :
    sshSeg j (some n) = ["-e", "ssh -p " ++ toString n] := by
  rcases hj with hj | hj <;> subst hj <;> simp [sshSeg, truthyStr, truthyNat, hnne]

theorem sshSeg_none {j : Option String} {pr : Option Nat}
    (hj : j = none ∨ j = some "") (hn : pr = none ∨ pr = some 0) :
    sshSeg j pr = [] := by
  rcases hj with hj | hj <;> rcases hn with hn | hn <;> subst hj <;> subst hn <;>
    simp [sshSeg, truthyStr, truthyNat]

/-- Outside the transport segment, no argument of the assembled vector
is the literal `-e` (given that no configured value collides with it). -/
theorem no_e_outside_transport (platform : String) (gx : Option String) (p : ProjectConfig)
    (dryRun includeEnv : Bool) (backupDir : Option String)
    (hx : "-e" ∉ p.exclude) (hpath : p.path ≠ "-e") (hrem : p.remote ≠ "-e")
    (hgx : ∀ f, gx = some f → f ≠ "-e") :
    (∀ x ∈ baseCmd ++ dryRunSeg dryRun ++ backupSeg backupDir, x ≠ "-e") ∧
    (∀ x ∈ includeEnvSeg includeEnv ++ excludeFromSeg platform gx ++ excludeSeg p.exclude
        ++ [srcArg platform p.path, p.remote], x ≠ "-e") := by
  constructor
  · intro x hmem
    rcases mem_preSegs hmem with h | h | h | ⟨d, h⟩
    · simp only [baseCmd, List.mem_cons, List.not_mem_nil, or_false] at h
      rcases h with h | h | h | h <;> (subst h; decide)
    · subst h; decide
    · subst h; decide
    · subst h
      exact append_ne_short _ _ _ (by decide)
  · intro x hmem
    rcases List.mem_append.mp hmem with h | h
    · rcases List.mem_append.mp h with h | h
      · rcases List.mem_append.mp h with h | h
        · cases includeEnv
          · simp [includeEnvSeg] at h
          · simp only [includeEnvSeg, if_pos] at h
            simp only [List.mem_cons, List.not_mem_nil, or_false] at h
            rcases h with h | h | h | h <;> (subst h; decide)
        · rcases mem_excludeFromSeg h with h | ⟨f, hf, h2⟩
          · subst h; decide
          · rcases h2 with h2 | h2
            · rw [h2]; exact hgx f hf
            · exact str_ne_of_head (by rw [h2]; decide)
      · rcases mem_excludeSeg h with h | h
        · subst h; decide
        · intro he; rw [he] at h; exact hx h
    · simp only [List.mem_cons, List.not_mem_nil, or_false] at h
      rcases h with h | h
      · subst h
        rcases srcArg_cases platform p.path with hc | hc
        · rw [hc]; exact hpath
        · exact str_ne_of_head (by rw [hc]; decide)
      · subst h; exact hrem

/-- C5: for every project configuration (whose configured values do not
literally collide with the `-e` flag), a truthy jump host together with
a truthy port yields exactly one `-e` transport override whose argument
encodes both; a truthy port alone yields exactly one simpler override;
and with neither, no `-e` override appears in the vector. -/
theorem c5_transport_override (platform : String) (gx : Option String) (p : ProjectConfig)
    (dryRun includeEnv : Bool) (backupDir : Option String) (j : String) (n : Nat)
    (hx : "-e" ∉ p.exclude) (hpath : p.path ≠ "-e") (hrem : p.remote ≠ "-e")
    (hgx : ∀ f, gx = some f → f ≠ "-e") :
    (p.sshJumpHost = some j → j ≠ "" → p.port = some n → n ≠ 0 →
      countArg "-e" (buildRsyncCmd platform gx p dryRun includeEnv backupDir) = 1 ∧
      afterFlag "-e" (buildRsyncCmd platform gx p dryRun includeEnv backupDir)
        = some ("ssh -J " ++ j ++ (" -p " ++ toString n))) ∧
    ((p.sshJumpHost = none ∨ p.sshJumpHost = some "") → p.port = some n → n ≠ 0 →
      countArg "-e" (buildRsyncCmd platform gx p dryRun includeEnv backupDir) = 1 ∧
      afterFlag "-e" (buildRsyncCmd platform gx p dryRun includeEnv backupDir)
        = some ("ssh -p " ++ toString n)) ∧
    ((p.sshJumpHost = none ∨ p.sshJumpHost = some "") → (p.port = none ∨ p.port = some 0) →
      countArg "-e" (buildRsyncCmd platform gx p dryRun includeEnv backupDir) = 0) := by
  obtain ⟨hA, hB⟩ := no_e_outside_transport platform gx p dryRun includeEnv backupDir
    hx hpath hrem hgx
  have key : ∀ s, sshSeg p.sshJumpHost p.port = ["-e", s] → s ≠ "-e" →
      countArg "-e" (buildRsyncCmd platform gx p dryRun includeEnv backupDir) = 1 ∧
      afterFlag "-e" (buildRsyncCmd platform gx p dryRun includeEnv backupDir) = some s := by
    intro s hseg hs
    rw [buildRsyncCmd_split, hseg]
    constructor
    · rw [countArg_append, countArg_eq_zero hA, countArg_append, countArg_eq_zero hB]
      simp [countArg, hs]
    · unfold afterFlag
      rw [dropWhile_append_of_all _ _ _ (fun x hx2 => by simpa using hA x hx2)]
      rw [List.cons_append, List.dropWhile_cons]
      simp
  refine ⟨fun hj2 hjne hn2 hnne => ?_, fun hj2 hn2 hnne => ?_, fun hj2 hn2 => ?_⟩
  · have hseg : sshSeg p.sshJumpHost p.port = ["-e", "ssh -J " ++ j ++ (" -p " ++ toString n)] := by
      rw [hj2, hn2]; exact sshSeg_both hjne hnne
    have h1 : ("ssh -J " : String).data.head? = some 's' := by decide
    have hhead : ("ssh -J " ++ j ++ (" -p " ++ toString n)).data.head? = some 's' :=
      head_data_append _ (head_data_append _ h1)
    exact key _ hseg (str_ne_of_head (by rw [hhead]; decide))
  · have hseg : sshSeg p.sshJumpHost p.port = ["-e", "ssh -p " ++ toString n] := by
      rw [hn2]; exact sshSeg_port hj2 hnne
    have h1 : ("ssh -p " : String).data.head? = some 's' := by decide
    have hhead : ("ssh -p " ++ toString n).data.head? = some 's' := head_data_append _ h1
    exact key _ hseg (str_ne_of_head (by rw [hhead]; decide))
  · rw [buildRsyncCmd_split, sshSeg_none hj2 hn2]
    rw [countArg_append, countArg_eq_zero hA, List.nil_append, countArg_eq_zero hB]

def c5Project : ProjectConfig :=
  { path := "/home/u/app"
    remote := "user@host:/srv/app"
    exclude := [".git"]
    port := some 2222
    sshJumpHost := some "bastion"
    backupDir := none
    preSend := none
    postSend := none }

/-- C5 witness. -/
theorem c5_transport_override_witness :
    countArg "-e" (buildRsyncCmd "linux" none c5Project false false none) = 1 ∧
    afterFlag "-e" (buildRsyncCmd "linux" none c5Project false false none)
      = some ("ssh -J " ++ "bastion" ++ (" -p " ++ toString 2222)) :=
  (c5_transport_override "linux" none c5Project false false none "bastion" 2222
    (by decide) (by decide) (by decide) (fun _ hf => Option.noConfusion hf)).1
    rfl (by decide) rfl (by decide)

/-! ## C8: include rules precede exclude rules -/

theorem get2_append (a b : String) (h2 : 2 < a.data.length) :
    (a ++ b).data[2]? = a.data[2]? := by
  rw [data_append]
  exact List.getElem?_append_left h2

/-- A string absent from each part is absent from the pre-include
segments of the vector. -/
theorem flag_not_in_preA (x : String) (dryRun : Bool) (backupDir : Option String)
    (j : Option String) (pr : Option Nat)
    (h1 : x ∉ baseCmd) (h2 : x ≠ "--dry-run") (h3 : x ≠ "--backup")
    (h4 : ∀ d, x ≠ "--backup-dir=" ++ d) (h5 : x ≠ "-e") (h6 : x.data.head? ≠ some 's') :
    x ∉ baseCmd ++ dryRunSeg dryRun ++ backupSeg backupDir ++ sshSeg j pr := by
  intro hmem
  rcases List.mem_append.mp hmem with h | h
  · rcases mem_preSegs h with h | h | h | ⟨d, h⟩
    · exact h1 h
    · exact h2 h
    · exact h3 h
    · exact h4 d h
  · rcases mem_sshSeg h with h | h
    · exact h5 h
    · exact h6 h

/-- C8: with include-env-override requested, the assembled vector
decomposes as a prefix `A` free of any include or exclude flag, followed
by the two `.env` include rules, followed by the exclude-from rule (when
a global exclude file exists), the project excludes and the trailing
source/destination pair — so every `.env` include rule sits at an
earlier position than every exclude rule. -/
theorem c8_env_includes_before_excludes (platform : String) (gx : Option String)
    (p : ProjectConfig) (dryRun : Bool) (backupDir : Option String) :
    ∃ A, buildRsyncCmd platform gx p dryRun true backupDir =
        A ++ (["--include", ".env", "--include", ".env.*"]
          ++ (excludeFromSeg platform gx ++ excludeSeg p.exclude
              ++ [srcArg platform p.path, p.remote])) ∧
      "--include" ∉ A ∧ "--exclude" ∉ A ∧ "--exclude-from" ∉ A := by
  refine ⟨baseCmd ++ dryRunSeg dryRun ++ backupSeg backupDir ++ sshSeg p.sshJumpHost p.port,
    ?_, ?_, ?_, ?_⟩
  · simp [buildRsyncCmd, includeEnvSeg, List.append_assoc]
  · exact flag_not_in_preA _ dryRun backupDir _ _ (by decide) (by decide) (by decide)
      (fun d he => append_ne_short "--backup-dir=" d "--include" (by decide) he.symm)
      (by decide) (by decide)
  · exact flag_not_in_preA _ dryRun backupDir _ _ (by decide) (by decide) (by decide)
      (fun d he => append_ne_short "--backup-dir=" d "--exclude" (by decide) he.symm)
      (by decide) (by decide)
  · exact flag_not_in_preA _ dryRun backupDir _ _ (by decide) (by decide) (by decide)
      (fun d he => str_ne_of_get2
        (by rw [get2_append "--backup-dir=" d (by decide)]; decide) he.symm)
      (by decide) (by decide)

def c10Project : ProjectConfig :=
  { path := "/home/u/app"
    remote := "user@host:/srv/app"
    exclude := []
    port := none
    sshJumpHost := none
    backupDir := none
    preSend := none
    postSend := none }

def c10Cfg : GlobalConfig :=
  { projects := [("app", c10Project)], configSync := some ⟨none⟩ }

def c10Env : SyncEnv :=
  { platform := "linux"
    wslAvailable := false
    globalExcludeFile := none
    clock := fun _ => "2024-01-01_00-00-00"
    preSendExit := 0
    rsyncExit := 0
    postSendExit := 0 }

/-- C10 witness. -/
theorem c10_config_sync_gating_witness :
    (mainRun c10Cfg c10Cfg c10Env 0 ⟨true, some "app", false, false⟩).cfgSyncEvents
        = [CfgSyncEvent.errNoCommand] ∧
    (mainRun c10Cfg c10Cfg c10Env 0 ⟨true, some "app", false, false⟩).usedReload = false ∧
    (mainRun c10Cfg c10Cfg c10Env 0 ⟨true, some "app", false, false⟩).sync
        = some (syncProject c10Env c10Project false false) ∧
    (mainRun c10Cfg c10Cfg c10Env 0 ⟨true, some "app", false, false⟩).exitCode = 0 :=
  (c10_config_sync_gating c10Cfg c10Cfg c10Env 0 "app" c10Project false false
    ⟨true, some "app", false, false⟩ (by decide) rfl).2.1 ⟨none⟩ rfl (Or.inl rfl)

end SendRepo
